import Mathlib

/-!
Verification development for the grocery-store discrete-event simulation
(`Projectsim.py`).  The program is a SimPy model: a `setup` process spawns
customer processes at sampled interarrival gaps until `SIMULATION_TIME`;
each customer re-evaluates lane capacity (`manage_checkouts`), records a
queue-length observation (`update_queue_stats`), joins the least-loaded
active lane, waits for the single-server lane, is served for a sampled
duration, and releases the lane.

The embedding below is a shallow, executable model of that program:

* pure store logic (`manage_checkouts`, `update_queue_stats`, the
  `min(range(active_lanes), key=load)` router) is translated directly from
  the source;
* SimPy's cooperative scheduling is modelled by defunctionalising each
  process body at its `yield` points into explicit events, held in an
  event list ordered by (time, priority, insertion id) exactly as SimPy's
  event queue is (`Initialize` events are URGENT = priority 0, timeouts,
  triggered requests and process-termination events are NORMAL =
  priority 1);
* `random.expovariate` is an oracle: a single stream `Nat → ℚ` consumed
  in call order (simulated time is ℚ, the idealisation of Python floats);
* SimPy's `Timeout` raises `ValueError` on a strictly negative delay,
  which aborts the run; this is the `aborted` flag;
* `env.run(until=SIMULATION_TIME)` schedules a stop event at the horizon
  that precedes every other event scheduled there, so the run processes
  exactly the events with time `< SIMULATION_TIME`; the driver `runSim`
  stops accordingly.
-/

namespace ProjectSim

/-- Source line 10: `MAX_QUEUE = 10`, the load threshold to open a lane. -/
def MAX_QUEUE : Nat := 10

/-- Source line 9: `NUM_CHECKOUT_LANES = 3`. -/
def NUM_CHECKOUT_LANES : Nat := 3

/-- Source line 11: `SIMULATION_TIME = 600`. -/
def SIMULATION_TIME : ℚ := 600

/-- One `simpy.Resource(env)` (capacity 1): `users` holds the ids of the
customers currently granted the server (at most one), `queue` the pending
requests in FIFO order, each carrying the customer id and its arrival
time (the local state of the suspended customer process). -/
structure Lane where
  users : List Nat
  queue : List (Nat × ℚ)
deriving DecidableEq, Repr

/-- SimPy's `lane.count`: number of users holding the resource. -/
def Lane.count (l : Lane) : Nat := l.users.length

/-- SimPy's `len(lane.queue)`. -/
def Lane.queueLen (l : Lane) : Nat := l.queue.length

/-- The congestion signal `lane.count + len(lane.queue)` used by both the
capacity controller and the router. -/
def Lane.load (l : Lane) : Nat := l.count + l.queueLen

/-- The `GroceryStore` state (source lines 13-22): lanes, the number of
active lanes (initially 1) and the four append-only observation lists. -/
structure Store where
  checkout_lanes : List Lane
  active_lanes : Nat
  waiting_times : List ℚ
  service_times : List ℚ
  average_queue_lengths : List ℚ
  queue_record_times : List ℚ
deriving DecidableEq, Repr

/-- Read lane `i` (total, with an empty default; the source only ever
indexes lanes `0`, `1`, `2` of its 3-lane list). -/
def Store.lane (s : Store) (i : Nat) : Lane := s.checkout_lanes.getD i ⟨[], []⟩

/-- Load of lane `i`, as the source computes it at lines 34, 37, 56. -/
def Store.laneLoad (s : Store) (i : Nat) : Nat := (s.lane i).load

/-- Replace lane `i`. -/
def Store.setLane (s : Store) (i : Nat) (l : Lane) : Store :=
  { s with checkout_lanes := s.checkout_lanes.set i l }

/-- First conditional of `manage_checkouts` (source lines 34-36):
`if self.checkout_lanes[0].count + len(self.checkout_lanes[0].queue) >=
MAX_QUEUE: self.active_lanes = 2`.  Note there is no guard on the current
value of `active_lanes`. -/
def manage1 (s : Store) : Store :=
  if MAX_QUEUE ≤ s.laneLoad 0 then { s with active_lanes := 2 } else s

/-- Second conditional of `manage_checkouts` (source lines 37-39):
`if self.active_lanes >= 2 and self.checkout_lanes[1].count +
len(self.checkout_lanes[1].queue) >= MAX_QUEUE: self.active_lanes = 3`.
It is a second independent `if`, not an `elif`. -/
def manage2 (s : Store) : Store :=
  if 2 ≤ s.active_lanes ∧ MAX_QUEUE ≤ s.laneLoad 1 then
    { s with active_lanes := 3 }
  else s

/-- Function `GroceryStore.manage_checkouts` (source lines 33-39): the two
conditionals in sequence. -/
def manage_checkouts (s : Store) : Store := manage2 (manage1 s)

/-- Total load over the active lanes, as in source line 42:
`sum(len(lane.queue) + lane.count for lane in
self.checkout_lanes[:self.active_lanes])`. -/
def Store.totalActiveLoad (s : Store) : Nat :=
  ((s.checkout_lanes.take s.active_lanes).map Lane.load).sum

/-- Method `GroceryStore.update_queue_stats` (source lines 41-45): appends the
average load over active lanes and the current time. -/
def update_queue_stats (now : ℚ) (s : Store) : Store :=
  { s with
    average_queue_lengths :=
      s.average_queue_lengths ++ [(s.totalActiveLoad : ℚ) / (s.active_lanes : ℚ)]
    queue_record_times := s.queue_record_times ++ [now] }

/-- The accumulator loop of Python's `min(..., key=...)`: keep the current
best, replace it only on a strictly smaller key (so the first minimum
wins on ties). -/
def bestLane (s : Store) (best : Nat) : List Nat → Nat
  | [] => best
  | i :: rest => bestLane s (if s.laneLoad i < s.laneLoad best then i else best) rest

/-- The router (source lines 54-57): `min(range(store.active_lanes),
key=lambda i: len(store.checkout_lanes[i].queue) +
store.checkout_lanes[i].count)`.  Python's `min` over the non-empty range
`0, 1, ..., active_lanes - 1` starts from `0` and folds over the rest.
(For `active_lanes = 0` the source would raise `ValueError`; the claims
only concern `active_lanes ≥ 1`.) -/
def selectLane (s : Store) : Nat :=
  bestLane s 0 (List.range' 1 (s.active_lanes - 1))

/-- Defunctionalised resume points of the three process bodies:

* `setupStart`: the `Initialize` event of `env.process(setup(...))`;
* `setupWake`: `setup` resumes after `yield env.timeout(expovariate)`
  (source line 71);
* `customerInit` : the `Initialize` event of `env.process(customer(...))`
  (source line 73);
* `grantWake cid lane arrival`: the customer's lane request was granted
  and the triggered request event is processed (source line 62);
* `serviceStart`: the `Initialize` event of
  `env.process(store.checkout_customer(...))` (source line 66);
* `serviceEnd cid lane dur`: `checkout_customer` resumes after
  `yield self.env.timeout(service_time)` (source line 26);
* `parentResume`: the customer process resumes after the checkout
  subprocess terminated, and exits the `with` block, releasing the lane;
* `releaseTrig lane`: the SimPy `Release` event is processed, handing the
  freed server to the head of the lane's request queue. -/
inductive Ev where
  | setupStart : Ev
  | setupWake : Ev
  | customerInit (cid : Nat) : Ev
  | grantWake (cid : Nat) (lane : Nat) (arrival : ℚ) : Ev
  | serviceStart (cid : Nat) (lane : Nat) : Ev
  | serviceEnd (cid : Nat) (lane : Nat) (dur : ℚ) : Ev
  | parentResume (cid : Nat) (lane : Nat) : Ev
  | releaseTrig (lane : Nat) : Ev
deriving DecidableEq, Repr

/-- A scheduled event: SimPy keys its heap by
`(time, priority, event id)`, event ids increasing in creation order. -/
structure Entry where
  time : ℚ
  prio : Nat
  eid : Nat
  ev : Ev
deriving DecidableEq, Repr

/-- Strict lexicographic order on SimPy's `(time, priority, eid)` keys. -/
def Entry.keyLT (a b : Entry) : Prop :=
  a.time < b.time ∨
    (a.time = b.time ∧ (a.prio < b.prio ∨ (a.prio = b.prio ∧ a.eid < b.eid)))

instance (a b : Entry) : Decidable (Entry.keyLT a b) := by
  unfold Entry.keyLT; infer_instance

/-- Pop the earliest event (least key) from the pending-event list;
models the heap pop of SimPy's `Environment.step`. -/
def popMin : List Entry → Option (Entry × List Entry)
  | [] => none
  | e :: rest =>
    match popMin rest with
    | none => some (e, [])
    | some (m, rest') =>
      if Entry.keyLT m e then some (m, e :: rest') else some (e, rest)

/-- Whole simulation state: the clock, the pending events, the store, the
next event id, `setup`'s `customer_id` counter, the random-stream cursor,
and whether a `ValueError` (negative timeout delay) aborted the run. -/
structure SimState where
  now : ℚ
  events : List Entry
  store : Store
  nextEid : Nat
  nextId : Nat
  cursor : Nat
  aborted : Bool
deriving DecidableEq, Repr

/-- Schedule an event after `delay` with the given priority. -/
def schedule (s : SimState) (delay : ℚ) (prio : Nat) (ev : Ev) : SimState :=
  { s with
    events := s.events ++ [⟨s.now + delay, prio, s.nextEid, ev⟩]
    nextEid := s.nextEid + 1 }

/-- Embedded `env.timeout(delay)`: SimPy's `Timeout.__init__` raises `ValueError`
on a strictly negative delay, which propagates and aborts the run;
otherwise the resumption is scheduled at `now + delay` (NORMAL
priority). -/
def timeoutSched (s : SimState) (delay : ℚ) (ev : Ev) : SimState :=
  if delay < 0 then { s with aborted := true } else schedule s delay 1 ev

/-- One `random.expovariate` call: consume the next oracle sample. -/
def sampleRnd (stream : Nat → ℚ) (s : SimState) : ℚ × SimState :=
  (stream s.cursor, { s with cursor := s.cursor + 1 })

/-- SimPy's `_trigger_put` on a capacity-1 resource: if the server is
free and a request is pending, grant the head request (append it to
`users`, drop it from the queue) and schedule the triggered request event
so the waiting customer resumes at the current instant. -/
def triggerPut (i : Nat) (s : SimState) : SimState :=
  let ln := s.store.lane i
  if ln.users.length < 1 then
    match ln.queue with
    | [] => s
    | (cid, arr) :: rest =>
      let s' := { s with store := s.store.setLane i ⟨ln.users ++ [cid], rest⟩ }
      schedule s' 0 1 (.grantWake cid i arr)
  else s

/-- The `setup` process starts (source lines 68-73): `customer_id = 0`, then the loop
guard `env.now < SIMULATION_TIME`; when it holds, sample the interarrival
gap and yield a timeout. -/
def handleSetupStart (stream : Nat → ℚ) (s : SimState) : SimState :=
  if s.now < SIMULATION_TIME then
    let (d, s') := sampleRnd stream s
    timeoutSched s' d .setupWake
  else s

/-- The `setup` process resumes after its timeout: `customer_id += 1`, spawn
`customer(env, customer_id, store)` (an URGENT `Initialize` event at the
current time), then re-check the loop guard and yield the next
timeout. -/
def handleSetupWake (stream : Nat → ℚ) (s : SimState) : SimState :=
  let cid := s.nextId + 1
  let s₁ := schedule { s with nextId := cid } 0 0 (.customerInit cid)
  if s₁.now < SIMULATION_TIME then
    let (d, s₂) := sampleRnd stream s₁
    timeoutSched s₂ d .setupWake
  else s₁

/-- The body of `customer` up to its first suspension (source lines
47-61): record `arrival_time = env.now`, run `manage_checkouts` then
`update_queue_stats`, pick the least-loaded active lane, and issue
`request()` on it: the request joins the lane's queue and SimPy's
`_trigger_put` immediately grants the head request if the server is
free. -/
def handleCustomerInit (cid : Nat) (s : SimState) : SimState :=
  let arrival := s.now
  let st := update_queue_stats s.now (manage_checkouts s.store)
  let l := selectLane st
  let ln := st.lane l
  let st' := st.setLane l ⟨ln.users, ln.queue ++ [(cid, arrival)]⟩
  triggerPut l { s with store := st' }

/-- The customer resumes with the lane granted (source lines 62-66):
`waiting_time = env.now - arrival_time` is appended, then the checkout
subprocess is spawned (URGENT `Initialize`) and the customer waits for
it. -/
def handleGrantWake (cid : Nat) (l : Nat) (arrival : ℚ) (s : SimState) : SimState :=
  let w := s.now - arrival
  let s₁ :=
    { s with store := { s.store with waiting_times := s.store.waiting_times ++ [w] } }
  schedule s₁ 0 0 (.serviceStart cid l)

/-- The `checkout_customer` subprocess starts (source lines 24-26): sample the service
time and yield `env.timeout(service_time)`. -/
def handleServiceStart (stream : Nat → ℚ) (cid : Nat) (l : Nat) (s : SimState) : SimState :=
  let (d, s') := sampleRnd stream s
  timeoutSched s' d (.serviceEnd cid l d)

/-- The `checkout_customer` subprocess resumes after its timeout (source lines 27-28):
append the sampled service time; the subprocess then terminates, which
schedules the waiting parent's resumption (NORMAL, current time). -/
def handleServiceEnd (cid : Nat) (l : Nat) (d : ℚ) (s : SimState) : SimState :=
  let s₁ :=
    { s with store := { s.store with service_times := s.store.service_times ++ [d] } }
  schedule s₁ 0 1 (.parentResume cid l)

/-- The customer resumes after checkout and exits the `with` block:
`release()` removes its request from the lane's users synchronously and
schedules the `Release` event (NORMAL, current time). -/
def handleParentResume (cid : Nat) (l : Nat) (s : SimState) : SimState :=
  let ln := s.store.lane l
  let s₁ := { s with store := s.store.setLane l ⟨ln.users.erase cid, ln.queue⟩ }
  schedule s₁ 0 1 (.releaseTrig l)

/-- Processing the `Release` event runs `_trigger_put`: the freed server
is handed to the head of the request queue, if any. -/
def handleReleaseTrig (l : Nat) (s : SimState) : SimState := triggerPut l s

/-- One step of `Environment.step`: pop the earliest event, advance the
clock to its time, and run the resumed process body to its next
suspension point. -/
def step (stream : Nat → ℚ) (s : SimState) : SimState :=
  match popMin s.events with
  | none => s
  | some (e, rest) =>
    let s' := { s with now := e.time, events := rest }
    match e.ev with
    | .setupStart => handleSetupStart stream s'
    | .setupWake => handleSetupWake stream s'
    | .customerInit cid => handleCustomerInit cid s'
    | .grantWake cid l arr => handleGrantWake cid l arr s'
    | .serviceStart cid l => handleServiceStart stream cid l s'
    | .serviceEnd cid l d => handleServiceEnd cid l d s'
    | .parentResume cid l => handleParentResume cid l s'
    | .releaseTrig l => handleReleaseTrig l s'

/-- Stop condition: `env.run(until=SIMULATION_TIME)` stops when the run aborted, the
event queue is empty, or the earliest pending event is at or past the
horizon (the stop event at `SIMULATION_TIME` is scheduled at run start
with URGENT priority and the smallest event id among events at the
horizon, so it precedes every other event scheduled there). -/
def shouldStop (s : SimState) : Bool :=
  s.aborted ||
    match popMin s.events with
    | none => true
    | some (e, _) => decide (SIMULATION_TIME ≤ e.time)

/-- Constructor `GroceryStore(env, ...)` (source lines 14-22): three empty lanes, one
active lane, empty observation lists. -/
def initStore : Store :=
  { checkout_lanes := List.replicate NUM_CHECKOUT_LANES ⟨[], []⟩
    active_lanes := 1
    waiting_times := []
    service_times := []
    average_queue_lengths := []
    queue_record_times := [] }

/-- The environment right before `env.run`: clock 0 and the single
`Initialize` event of the `setup` process (source lines 77-79). -/
def initState : SimState :=
  { now := 0
    events := [⟨0, 0, 0, .setupStart⟩]
    store := initStore
    nextEid := 1
    nextId := 0
    cursor := 0
    aborted := false }

/-- Run the simulation for at most `n` event steps, stopping as
`env.run(until=SIMULATION_TIME)` does.  Every run of the program is
`runSim stream n` for `n` large enough that `shouldStop` holds. -/
def runSim (stream : Nat → ℚ) : Nat → SimState
  | 0 => initState
  | n + 1 =>
    let s := runSim stream n
    if shouldStop s then s else step stream s

/-! ## Basic facts about the capacity controller -/

theorem manage1_lanes (s : Store) : (manage1 s).checkout_lanes = s.checkout_lanes := by
  unfold manage1; split <;> rfl

theorem manage1_laneLoad (s : Store) (i : Nat) : (manage1 s).laneLoad i = s.laneLoad i := by
  unfold Store.laneLoad Store.lane; rw [manage1_lanes]

theorem manage1_active (s : Store) :
    (manage1 s).active_lanes = if MAX_QUEUE ≤ s.laneLoad 0 then 2 else s.active_lanes := by
  unfold manage1; split <;> rfl

theorem manage2_lanes (s : Store) : (manage2 s).checkout_lanes = s.checkout_lanes := by
  unfold manage2; split <;> rfl

theorem manage_checkouts_lanes (s : Store) :
    (manage_checkouts s).checkout_lanes = s.checkout_lanes := by
  unfold manage_checkouts; rw [manage2_lanes, manage1_lanes]

theorem manage2_active (s : Store) :
    (manage2 s).active_lanes =
      if 2 ≤ s.active_lanes ∧ MAX_QUEUE ≤ s.laneLoad 1 then 3 else s.active_lanes := by
  unfold manage2; split <;> rfl

theorem manage_checkouts_active (s : Store) :
    (manage_checkouts s).active_lanes =
      if 2 ≤ (if MAX_QUEUE ≤ s.laneLoad 0 then 2 else s.active_lanes) ∧
          MAX_QUEUE ≤ s.laneLoad 1 then 3
      else if MAX_QUEUE ≤ s.laneLoad 0 then 2 else s.active_lanes := by
  unfold manage_checkouts
  rw [manage2_active, manage1_laneLoad, manage1_active]

/-- C4 (amended): what `manage_checkouts` actually computes, for any store
whose active-lane count is in range.  The two conditionals are independent
`if`s, not an if/else: the result is 3 exactly when lane 2's load is at or
past the threshold and (lane 1's load is at or past the threshold or at
least 2 lanes were active); it is 2 exactly when the first conditional
fires or 2 lanes were already active, and the second conditional does not
fire (or 3 lanes were already active and neither conditional fired,
leaving the value 3); it is 1 exactly when one lane was active and lane 1
is below the threshold.  In particular both conditionals can fire in one
call (1 becomes 3) and the first can overwrite 3 with 2. -/
theorem manage_checkouts_characterization (s : Store)
    (h1 : 1 ≤ s.active_lanes) (h3 : s.active_lanes ≤ 3) :
    ((manage_checkouts s).active_lanes = 3 ↔
      (MAX_QUEUE ≤ s.laneLoad 1 ∧ (MAX_QUEUE ≤ s.laneLoad 0 ∨ 2 ≤ s.active_lanes)) ∨
        (s.laneLoad 0 < MAX_QUEUE ∧ s.active_lanes = 3)) ∧
    ((manage_checkouts s).active_lanes = 2 ↔
      (MAX_QUEUE ≤ s.laneLoad 0 ∨ s.active_lanes = 2) ∧
        ¬((MAX_QUEUE ≤ s.laneLoad 1 ∧ (MAX_QUEUE ≤ s.laneLoad 0 ∨ 2 ≤ s.active_lanes)) ∨
          (s.laneLoad 0 < MAX_QUEUE ∧ s.active_lanes = 3))) ∧
    ((manage_checkouts s).active_lanes = 1 ↔
      s.active_lanes = 1 ∧ s.laneLoad 0 < MAX_QUEUE) := by
  rw [manage_checkouts_active]
  by_cases hL0 : MAX_QUEUE ≤ s.laneLoad 0 <;>
    by_cases hL1 : MAX_QUEUE ≤ s.laneLoad 1 <;>
      by_cases h2 : 2 ≤ s.active_lanes <;>
        simp [hL0, hL1, h2] <;> omega

/-- C4 witness: a store with one active lane and both front lanes at the
threshold load; `manage_checkouts` jumps straight from 1 to 3 active
lanes, so the amended characterization is inhabited. -/
def c4Store : Store :=
  { checkout_lanes :=
      [⟨[1], (List.range 9).map fun i => (i, (0 : ℚ))⟩,
        ⟨[2], (List.range 9).map fun i => (i, (0 : ℚ))⟩, ⟨[], []⟩]
    active_lanes := 1
    waiting_times := []
    service_times := []
    average_queue_lengths := []
    queue_record_times := [] }

/-- C4: the claim's policy activates at most one lane per evaluation and
is an if/else; the code is not: on `c4Store` (one active lane, lanes 1
and 2 both at load 10) a single `manage_checkouts` call activates two
lanes at once, going from 1 active lane to 3. -/
theorem manage_checkouts_double_activation :
    c4Store.active_lanes = 1 ∧ (manage_checkouts c4Store).active_lanes = 3 := by
  constructor
  · rfl
  · decide

/-- Witness for the C4 characterization at `c4Store`. -/
theorem manage_checkouts_characterization_witness :
    (manage_checkouts c4Store).active_lanes = 3 ↔
      (MAX_QUEUE ≤ c4Store.laneLoad 1 ∧
          (MAX_QUEUE ≤ c4Store.laneLoad 0 ∨ 2 ≤ c4Store.active_lanes)) ∨
        (c4Store.laneLoad 0 < MAX_QUEUE ∧ c4Store.active_lanes = 3) :=
  (manage_checkouts_characterization c4Store (by decide) (by decide)).1

/-- C6: a `manage_checkouts` call on a state with fewer than 3 active
lanes can only set `active_lanes` to 3 if, at the instant of the
assignment (that is, after the first conditional ran), at least 2 lanes
are active and lane 2's load is at or past the threshold. -/
theorem lane3_requires_lane2_active (s : Store) (hlt : s.active_lanes < 3)
    (h3 : (manage_checkouts s).active_lanes = 3) :
    2 ≤ (manage1 s).active_lanes ∧ MAX_QUEUE ≤ s.laneLoad 1 := by
  rw [manage_checkouts_active] at h3
  rw [manage1_active]
  by_cases hL0 : MAX_QUEUE ≤ s.laneLoad 0 <;>
    by_cases hL1 : MAX_QUEUE ≤ s.laneLoad 1 <;>
      by_cases h2 : 2 ≤ s.active_lanes <;>
        simp [hL0, hL1, h2] at h3 ⊢ <;> omega

/-- Store used to witness C6: two active lanes and lane 2 at threshold
load. -/
def c6Store : Store :=
  { checkout_lanes :=
      [⟨[], []⟩, ⟨[2], (List.range 9).map fun i => (i, (0 : ℚ))⟩, ⟨[], []⟩]
    active_lanes := 2
    waiting_times := []
    service_times := []
    average_queue_lengths := []
    queue_record_times := [] }

/-- Witness for C6 at `c6Store`. -/
theorem lane3_requires_lane2_active_witness :
    2 ≤ (manage1 c6Store).active_lanes ∧ MAX_QUEUE ≤ c6Store.laneLoad 1 :=
  lane3_requires_lane2_active c6Store (by decide) (by decide)

/-! ## The router -/

/-- Invariants of the `min` fold: starting from a current best index
strictly below every index still to scan, the result is the first index
of minimal load among the best and the scanned range. -/
theorem bestLane_spec (s : Store) :
    ∀ (n a best : Nat), best < a →
      (bestLane s best (List.range' a n) = best ∨
        (a ≤ bestLane s best (List.range' a n) ∧ bestLane s best (List.range' a n) < a + n)) ∧
      s.laneLoad (bestLane s best (List.range' a n)) ≤ s.laneLoad best ∧
      (∀ j, a ≤ j → j < a + n → s.laneLoad (bestLane s best (List.range' a n)) ≤ s.laneLoad j) ∧
      (s.laneLoad (bestLane s best (List.range' a n)) = s.laneLoad best →
        bestLane s best (List.range' a n) = best) ∧
      (∀ j, a ≤ j → j < a + n →
        s.laneLoad j = s.laneLoad (bestLane s best (List.range' a n)) →
        bestLane s best (List.range' a n) ≤ j) := by
  intro n
  induction n with
  | zero =>
    intro a best hba
    have h0 : bestLane s best (List.range' a 0) = best := rfl
    rw [h0]
    exact ⟨Or.inl rfl, le_refl _, fun j hj1 hj2 => by omega, fun _ => rfl,
      fun j hj1 hj2 _ => by omega⟩
  | succ n ih =>
    intro a best hba
    rw [List.range'_succ]
    by_cases hc : s.laneLoad a < s.laneLoad best
    · have hrec := ih (a + 1) a (Nat.lt_succ_self a)
      obtain ⟨hr1, hr2, hr3, hr4, hr5⟩ := hrec
      have hstep : bestLane s best (a :: List.range' (a + 1) n) =
          bestLane s a (List.range' (a + 1) n) := by
        simp [bestLane, hc]
      rw [hstep]
      refine ⟨by omega, le_trans hr2 (le_of_lt hc), ?_, ?_, ?_⟩
      · intro j hj1 hj2
        rcases Nat.eq_or_lt_of_le hj1 with rfl | hj'
        · exact hr2
        · exact hr3 j hj' (by omega)
      · intro heq
        exact absurd heq (by omega)
      · intro j hj1 hj2 heq
        rcases Nat.eq_or_lt_of_le hj1 with rfl | hj'
        · have := hr4 (by omega)
          omega
        · exact hr5 j hj' (by omega) heq
    · have hrec := ih (a + 1) best (by omega)
      obtain ⟨hr1, hr2, hr3, hr4, hr5⟩ := hrec
      have hstep : bestLane s best (a :: List.range' (a + 1) n) =
          bestLane s best (List.range' (a + 1) n) := by
        simp [bestLane, hc]
      rw [hstep]
      refine ⟨by omega, hr2, ?_, hr4, ?_⟩
      · intro j hj1 hj2
        rcases Nat.eq_or_lt_of_le hj1 with rfl | hj'
        · omega
        · exact hr3 j hj' (by omega)
      · intro j hj1 hj2 heq
        rcases Nat.eq_or_lt_of_le hj1 with rfl | hj'
        · have := hr4 (by omega)
          omega
        · exact hr5 j hj' (by omega) heq

/-- C7: `min(range(active_lanes), key=load)` with at least one active
lane returns an index of an active lane (so never an inactive one), of
minimal load among the active lanes, and the lowest such index when
several active lanes tie for minimal load. -/
theorem router_min_load_lowest_index (s : Store) (h : 1 ≤ s.active_lanes) :
    selectLane s < s.active_lanes ∧
    (∀ j, j < s.active_lanes → s.laneLoad (selectLane s) ≤ s.laneLoad j) ∧
    (∀ j, j < s.active_lanes → s.laneLoad j = s.laneLoad (selectLane s) →
      selectLane s ≤ j) := by
  have hspec := bestLane_spec s (s.active_lanes - 1) 1 0 Nat.zero_lt_one
  obtain ⟨h1, h2, h3, h4, h5⟩ := hspec
  unfold selectLane
  refine ⟨by omega, ?_, ?_⟩
  · intro j hj
    rcases Nat.eq_zero_or_pos j with rfl | hj'
    · exact h2
    · exact h3 j hj' (by omega)
  · intro j hj heq
    rcases Nat.eq_zero_or_pos j with rfl | hj'
    · have := h4 (by omega)
      omega
    · exact h5 j hj' (by omega) heq

/-- Store used to witness C7: two active lanes tied at load 1, lane 3
inactive and empty; the router picks lane index 0. -/
def c7Store : Store :=
  { checkout_lanes := [⟨[5], []⟩, ⟨[6], []⟩, ⟨[], []⟩]
    active_lanes := 2
    waiting_times := []
    service_times := []
    average_queue_lengths := []
    queue_record_times := [] }

/-- Witness for C7 at the constructed tie scenario `c7Store`. -/
theorem router_min_load_lowest_index_witness :
    selectLane c7Store < c7Store.active_lanes ∧
    (∀ j, j < c7Store.active_lanes →
      c7Store.laneLoad (selectLane c7Store) ≤ c7Store.laneLoad j) ∧
    (∀ j, j < c7Store.active_lanes →
      c7Store.laneLoad j = c7Store.laneLoad (selectLane c7Store) →
      selectLane c7Store ≤ j) :=
  router_min_load_lowest_index c7Store (by decide)

/-! ## Clock and observation bookkeeping of the handlers -/

theorem schedule_now (s : SimState) (d : ℚ) (p : Nat) (ev : Ev) :
    (schedule s d p ev).now = s.now := rfl

theorem timeoutSched_now (s : SimState) (d : ℚ) (ev : Ev) :
    (timeoutSched s d ev).now = s.now := by
  unfold timeoutSched; split <;> rfl

theorem triggerPut_now (i : Nat) (s : SimState) : (triggerPut i s).now = s.now := by
  unfold triggerPut
  dsimp only
  split
  · split <;> rfl
  · rfl

theorem handleSetupStart_now (stream : Nat → ℚ) (s : SimState) :
    (handleSetupStart stream s).now = s.now := by
  unfold handleSetupStart sampleRnd
  dsimp only
  split <;> simp [timeoutSched_now]

theorem handleSetupWake_now (stream : Nat → ℚ) (s : SimState) :
    (handleSetupWake stream s).now = s.now := by
  unfold handleSetupWake sampleRnd
  dsimp only
  split <;> simp [timeoutSched_now, schedule_now]

theorem handleCustomerInit_now (cid : Nat) (s : SimState) :
    (handleCustomerInit cid s).now = s.now := by
  unfold handleCustomerInit
  rw [triggerPut_now]

theorem handleGrantWake_now (cid l : Nat) (arr : ℚ) (s : SimState) :
    (handleGrantWake cid l arr s).now = s.now := rfl

theorem handleServiceStart_now (stream : Nat → ℚ) (cid l : Nat) (s : SimState) :
    (handleServiceStart stream cid l s).now = s.now := by
  unfold handleServiceStart sampleRnd
  simp [timeoutSched_now]

theorem handleServiceEnd_now (cid l : Nat) (d : ℚ) (s : SimState) :
    (handleServiceEnd cid l d s).now = s.now := rfl

theorem handleParentResume_now (cid l : Nat) (s : SimState) :
    (handleParentResume cid l s).now = s.now := rfl

theorem handleReleaseTrig_now (l : Nat) (s : SimState) :
    (handleReleaseTrig l s).now = s.now := triggerPut_now l s

theorem schedule_store (s : SimState) (d : ℚ) (p : Nat) (ev : Ev) :
    (schedule s d p ev).store = s.store := rfl

theorem timeoutSched_store (s : SimState) (d : ℚ) (ev : Ev) :
    (timeoutSched s d ev).store = s.store := by
  unfold timeoutSched; split <;> rfl

theorem setLane_average (s : Store) (i : Nat) (l : Lane) :
    (s.setLane i l).average_queue_lengths = s.average_queue_lengths := rfl

theorem setLane_record_times (s : Store) (i : Nat) (l : Lane) :
    (s.setLane i l).queue_record_times = s.queue_record_times := rfl

theorem triggerPut_average (i : Nat) (s : SimState) :
    (triggerPut i s).store.average_queue_lengths =
      s.store.average_queue_lengths := by
  unfold triggerPut
  dsimp only
  split
  · split
    · rfl
    · rw [schedule_store]
      exact setLane_average ..
  · rfl

theorem triggerPut_record_times (i : Nat) (s : SimState) :
    (triggerPut i s).store.queue_record_times = s.store.queue_record_times := by
  unfold triggerPut
  dsimp only
  split
  · split
    · rfl
    · rw [schedule_store]
      exact setLane_record_times ..
  · rfl

/-- C8: processing an arrival first runs `manage_checkouts`, then records
exactly one queue-length observation before routing: the value appended
is the total load over the then-active lanes divided by the then-current
active-lane count, and the timestamp appended is the current simulated
time.  No other process step touches the two observation sequences. -/
theorem arrival_records_average_load (stream : Nat → ℚ) (cid l : Nat) (arr d : ℚ)
    (s : SimState) :
    ((handleCustomerInit cid s).store.average_queue_lengths =
        (manage_checkouts s.store).average_queue_lengths ++
          [((manage_checkouts s.store).totalActiveLoad : ℚ) /
            ((manage_checkouts s.store).active_lanes : ℚ)] ∧
      (handleCustomerInit cid s).store.queue_record_times =
        (manage_checkouts s.store).queue_record_times ++ [s.now]) ∧
    (handleSetupStart stream s).store.average_queue_lengths =
        s.store.average_queue_lengths ∧
    (handleSetupWake stream s).store.average_queue_lengths =
        s.store.average_queue_lengths ∧
    (handleGrantWake cid l arr s).store.average_queue_lengths =
        s.store.average_queue_lengths ∧
    (handleServiceStart stream cid l s).store.average_queue_lengths =
        s.store.average_queue_lengths ∧
    (handleServiceEnd cid l d s).store.average_queue_lengths =
        s.store.average_queue_lengths ∧
    (handleParentResume cid l s).store.average_queue_lengths =
        s.store.average_queue_lengths ∧
    (handleReleaseTrig l s).store.average_queue_lengths =
        s.store.average_queue_lengths := by
  refine ⟨⟨?_, ?_⟩, ?_, ?_, ?_, ?_, ?_, ?_, ?_⟩
  · unfold handleCustomerInit
    rw [triggerPut_average]
    exact setLane_average ..
  · unfold handleCustomerInit
    rw [triggerPut_record_times]
    exact setLane_record_times ..
  · unfold handleSetupStart sampleRnd
    dsimp only
    split
    · rw [timeoutSched_store]
    · rfl
  · unfold handleSetupWake sampleRnd
    dsimp only
    split
    · rw [timeoutSched_store]
      rfl
    · rfl
  · rfl
  · unfold handleServiceStart sampleRnd
    rw [timeoutSched_store]
  · rfl
  · unfold handleParentResume
    rw [schedule_store]
    exact setLane_average ..
  · exact triggerPut_average ..

/-! ## Facts about the event queue -/

theorem keyLT_time_le {a b : Entry} (h : Entry.keyLT a b) : a.time ≤ b.time := by
  rcases h with h | ⟨h, _⟩
  · exact le_of_lt h
  · exact le_of_eq h

theorem not_keyLT_time_le {a b : Entry} (h : ¬ Entry.keyLT a b) : b.time ≤ a.time :=
  le_of_not_lt fun hlt => h (Or.inl hlt)

theorem popMin_ne_none (e : Entry) (t : List Entry) : popMin (e :: t) ≠ none := by
  unfold popMin
  cases popMin t with
  | none => simp
  | some p =>
    obtain ⟨m, r⟩ := p
    by_cases hk : Entry.keyLT m e <;> simp [hk]

/-- The popped entry together with the remainder is a permutation of the
original queue. -/
theorem popMin_perm :
    ∀ {l : List Entry} {e : Entry} {rest : List Entry},
      popMin l = some (e, rest) → l.Perm (e :: rest) := by
  intro l
  induction l with
  | nil => intro e rest h; simp [popMin] at h
  | cons x t ih =>
    intro e rest h
    rw [popMin] at h
    rcases ht : popMin t with _ | ⟨⟨m, r⟩⟩
    · have htnil : t = [] := by
        cases t with
        | nil => rfl
        | cons y u => exact absurd ht (popMin_ne_none y u)
      subst htnil
      rw [ht] at h
      simp at h
      obtain ⟨rfl, rfl⟩ := h
      exact List.Perm.refl _
    · rw [ht] at h
      dsimp only at h
      by_cases hk : Entry.keyLT m x
      · rw [if_pos hk] at h
        simp at h
        obtain ⟨rfl, rfl⟩ := h
        exact ((ih ht).cons x).trans (List.Perm.swap m x r)
      · rw [if_neg hk] at h
        simp at h
        obtain ⟨rfl, rfl⟩ := h
        exact List.Perm.refl _

/-- The popped entry has minimal time among the queued entries. -/
theorem popMin_time_le :
    ∀ {l : List Entry} {e : Entry} {rest : List Entry},
      popMin l = some (e, rest) → ∀ x ∈ l, e.time ≤ x.time := by
  intro l
  induction l with
  | nil => intro e rest h; simp [popMin] at h
  | cons x t ih =>
    intro e rest h
    rw [popMin] at h
    rcases ht : popMin t with _ | ⟨⟨m, r⟩⟩
    · have htnil : t = [] := by
        cases t with
        | nil => rfl
        | cons y u => exact absurd ht (popMin_ne_none y u)
      subst htnil
      rw [ht] at h
      simp at h
      obtain ⟨rfl, rfl⟩ := h
      intro y hy
      simp at hy
      subst hy
      exact le_refl _
    · rw [ht] at h
      dsimp only at h
      by_cases hk : Entry.keyLT m x
      · rw [if_pos hk] at h
        simp at h
        obtain ⟨rfl, rfl⟩ := h
        intro y hy
        rcases List.mem_cons.mp hy with rfl | hy'
        · exact keyLT_time_le hk
        · exact ih ht y hy'
      · rw [if_neg hk] at h
        simp at h
        obtain ⟨rfl, rfl⟩ := h
        intro y hy
        rcases List.mem_cons.mp hy with rfl | hy'
        · exact le_refl _
        · exact le_trans (not_keyLT_time_le hk) (ih ht y hy')

theorem popMin_mem {l : List Entry} {e : Entry} {rest : List Entry}
    (h : popMin l = some (e, rest)) : e ∈ l :=
  (popMin_perm h).symm.subset (List.mem_cons_self e rest)

theorem popMin_rest_subset {l : List Entry} {e : Entry} {rest : List Entry}
    (h : popMin l = some (e, rest)) : ∀ x ∈ rest, x ∈ l :=
  fun _ hx => (popMin_perm h).symm.subset (List.mem_cons_of_mem e hx)

/-! ## The run invariant -/

/-- Events marking a customer that has entered service (its wait time is
recorded) but whose service time is not yet recorded. -/
def Ev.isPend : Ev → Bool
  | .serviceStart _ _ => true
  | .serviceEnd _ _ _ => true
  | _ => false

/-- Number of customers currently in service (wait recorded, service time
not yet recorded). -/
def pendCount (l : List Entry) : Nat := l.countP (fun e => e.ev.isPend)

/-- Invariant maintained by every step of the simulation:
times of pending events never precede the clock, resumption events carry
arrival times not in the future, queued requests carry past arrival
times, recorded wait and service times are non-negative, pending
service-completion events carry non-negative durations, the active-lane
count stays in `[1, 3]`, and the number of recorded service times plus
customers in service never exceeds the number of recorded wait times. -/
structure Inv (s : SimState) : Prop where
  evTime : ∀ e ∈ s.events, s.now ≤ e.time
  grantArr : ∀ e ∈ s.events, ∀ cid l arr, e.ev = .grantWake cid l arr → arr ≤ e.time
  laneArr : ∀ ln ∈ s.store.checkout_lanes, ∀ p ∈ ln.queue, p.2 ≤ s.now
  waitsNN : ∀ w ∈ s.store.waiting_times, 0 ≤ w
  servicesNN : ∀ v ∈ s.store.service_times, 0 ≤ v
  sendNN : ∀ e ∈ s.events, ∀ cid l d, e.ev = .serviceEnd cid l d → 0 ≤ d
  activeRange : 1 ≤ s.store.active_lanes ∧ s.store.active_lanes ≤ 3
  lenRel : s.store.service_times.length + pendCount s.events ≤
    s.store.waiting_times.length

theorem pendCount_append (l₁ l₂ : List Entry) :
    pendCount (l₁ ++ l₂) = pendCount l₁ + pendCount l₂ :=
  List.countP_append _ l₁ l₂

/-- Scheduling preserves the invariant when the delay is non-negative and
the event scheduled satisfies the event-specific obligations. -/
theorem inv_schedule {t : SimState} (ht : Inv t) {d : ℚ} (hd : 0 ≤ d) {p : Nat} {ev : Ev}
    (hgr : ∀ cid l arr, ev = .grantWake cid l arr → arr ≤ t.now + d)
    (hse : ∀ cid l dur, ev = .serviceEnd cid l dur → 0 ≤ dur)
    (hpend : ev.isPend = true →
      t.store.service_times.length + pendCount t.events + 1 ≤
        t.store.waiting_times.length) :
    Inv (schedule t d p ev) := by
  constructor
  · intro e he
    rcases List.mem_append.mp he with he' | he'
    · exact ht.evTime e he'
    · rw [List.mem_singleton.mp he']
      exact le_add_of_nonneg_right hd
  · intro e he cid l arr hev
    rcases List.mem_append.mp he with he' | he'
    · exact ht.grantArr e he' cid l arr hev
    · rw [List.mem_singleton.mp he'] at hev ⊢
      exact hgr cid l arr hev
  · exact ht.laneArr
  · exact ht.waitsNN
  · exact ht.servicesNN
  · intro e he cid l dur hev
    rcases List.mem_append.mp he with he' | he'
    · exact ht.sendNN e he' cid l dur hev
    · rw [List.mem_singleton.mp he'] at hev
      exact hse cid l dur hev
  · exact ht.activeRange
  · show t.store.service_times.length +
      pendCount (t.events ++ [⟨t.now + d, p, t.nextEid, ev⟩]) ≤
        t.store.waiting_times.length
    rw [pendCount_append]
    cases hp : ev.isPend with
    | false =>
      have : pendCount [⟨t.now + d, p, t.nextEid, ev⟩] = 0 := by
        simp [pendCount, List.countP_cons, hp]
      rw [this]
      simpa using ht.lenRel
    | true =>
      have : pendCount [⟨t.now + d, p, t.nextEid, ev⟩] = 1 := by
        simp [pendCount, List.countP_cons, hp]
      rw [this]
      have := hpend hp
      omega

/-- The abort branch leaves everything the invariant talks about
unchanged. -/
theorem inv_abort {t : SimState} (ht : Inv t) : Inv { t with aborted := true } :=
  ⟨ht.evTime, ht.grantArr, ht.laneArr, ht.waitsNN, ht.servicesNN, ht.sendNN,
    ht.activeRange, ht.lenRel⟩

/-- Timeouts preserve the invariant for the event shapes the
program schedules through timeouts. -/
theorem inv_timeoutSched {t : SimState} (ht : Inv t) {d : ℚ} {ev : Ev}
    (hgr : ∀ cid l arr, ev ≠ .grantWake cid l arr)
    (hse : ∀ cid l dur, ev = .serviceEnd cid l dur → dur = d)
    (hpend : ev.isPend = true →
      t.store.service_times.length + pendCount t.events + 1 ≤
        t.store.waiting_times.length) :
    Inv (timeoutSched t d ev) := by
  unfold timeoutSched
  split
  · exact inv_abort ht
  · next hge =>
    exact inv_schedule ht (not_lt.mp hge)
      (fun cid l arr hev => absurd hev (hgr cid l arr))
      (fun cid l dur hev => (hse cid l dur hev) ▸ not_lt.mp hge)
      hpend

/-- Granting preserves the invariant: in `triggerPut`, the request it may grant comes
from a lane queue, whose arrival times are in the past. -/
theorem inv_triggerPut (i : Nat) {t : SimState} (ht : Inv t) : Inv (triggerPut i t) := by
  unfold triggerPut
  dsimp only
  split
  · rcases hq : (t.store.lane i).queue with _ | ⟨⟨cid, arr⟩, rest⟩
    · exact ht
    · dsimp only
      have hi : i < t.store.checkout_lanes.length := by
        by_contra hge
        have : t.store.lane i = ⟨[], []⟩ :=
          List.getD_eq_default _ _ (le_of_not_lt hge)
        rw [this] at hq
        simp at hq
      have hmemlane : t.store.lane i ∈ t.store.checkout_lanes := by
        unfold Store.lane
        rw [List.getD_eq_getElem _ _ hi]
        exact List.getElem_mem hi
      have harr : arr ≤ t.now := by
        have := ht.laneArr _ hmemlane (cid, arr) (by rw [hq]; exact List.mem_cons_self _ _)
        exact this
      set st' := t.store.setLane i ⟨(t.store.lane i).users ++ [cid], rest⟩ with hst'
      have ht' : Inv { t with store := st' } := by
        rw [hst']
        constructor
        · exact ht.evTime
        · exact ht.grantArr
        · intro ln hln p hp
          rcases List.mem_or_eq_of_mem_set hln with hln' | rfl
          · exact ht.laneArr ln hln' p hp
          · have hp' : p ∈ (t.store.lane i).queue := by
              rw [hq]
              exact List.mem_cons_of_mem _ hp
            exact ht.laneArr _ hmemlane p hp'
        · exact ht.waitsNN
        · exact ht.servicesNN
        · exact ht.sendNN
        · exact ht.activeRange
        · exact ht.lenRel
      refine inv_schedule ht' (le_refl 0) ?_ ?_ ?_
      · intro cid' l' arr' hev
        cases hev
        simpa using harr
      · intro cid' l' dur hev
        cases hev
      · intro hcontra
        simp [Ev.isPend] at hcontra
  · exact ht

theorem manage1_waits (s : Store) : (manage1 s).waiting_times = s.waiting_times := by
  unfold manage1; split <;> rfl

theorem manage2_waits (s : Store) : (manage2 s).waiting_times = s.waiting_times := by
  unfold manage2; split <;> rfl

theorem manage_checkouts_waits (s : Store) :
    (manage_checkouts s).waiting_times = s.waiting_times := by
  unfold manage_checkouts; rw [manage2_waits, manage1_waits]

theorem manage1_services (s : Store) : (manage1 s).service_times = s.service_times := by
  unfold manage1; split <;> rfl

theorem manage2_services (s : Store) : (manage2 s).service_times = s.service_times := by
  unfold manage2; split <;> rfl

theorem manage_checkouts_services (s : Store) :
    (manage_checkouts s).service_times = s.service_times := by
  unfold manage_checkouts; rw [manage2_services, manage1_services]

theorem manage_checkouts_active_range (s : Store)
    (h : 1 ≤ s.active_lanes ∧ s.active_lanes ≤ 3) :
    1 ≤ (manage_checkouts s).active_lanes ∧ (manage_checkouts s).active_lanes ≤ 3 := by
  rw [manage_checkouts_active]
  split_ifs <;> omega

theorem update_manage_lane (t : Store) (now : ℚ) (i : Nat) :
    (update_queue_stats now (manage_checkouts t)).lane i = t.lane i := by
  unfold Store.lane update_queue_stats
  rw [manage_checkouts_lanes]

/-! ## Invariant preservation by each handler -/

theorem inv_handleSetupStart (stream : Nat → ℚ) {t : SimState} (ht : Inv t) :
    Inv (handleSetupStart stream t) := by
  unfold handleSetupStart sampleRnd
  dsimp only
  split
  · apply inv_timeoutSched
    · exact ⟨ht.evTime, ht.grantArr, ht.laneArr, ht.waitsNN, ht.servicesNN,
        ht.sendNN, ht.activeRange, ht.lenRel⟩
    · intro cid l arr hev
      cases hev
    · intro cid l dur hev
      cases hev
    · intro hcontra
      simp [Ev.isPend] at hcontra
  · exact ht

theorem inv_handleSetupWake (stream : Nat → ℚ) {t : SimState} (ht : Inv t) :
    Inv (handleSetupWake stream t) := by
  unfold handleSetupWake sampleRnd
  dsimp only
  have h₁ : Inv (schedule { t with nextId := t.nextId + 1 } 0 0
      (.customerInit (t.nextId + 1))) := by
    apply inv_schedule
    · exact ⟨ht.evTime, ht.grantArr, ht.laneArr, ht.waitsNN, ht.servicesNN,
        ht.sendNN, ht.activeRange, ht.lenRel⟩
    · exact le_refl 0
    · intro cid l arr hev
      cases hev
    · intro cid l dur hev
      cases hev
    · intro hcontra
      simp [Ev.isPend] at hcontra
  split
  · apply inv_timeoutSched
    · exact ⟨h₁.evTime, h₁.grantArr, h₁.laneArr, h₁.waitsNN, h₁.servicesNN,
        h₁.sendNN, h₁.activeRange, h₁.lenRel⟩
    · intro cid l arr hev
      cases hev
    · intro cid l dur hev
      cases hev
    · intro hcontra
      simp [Ev.isPend] at hcontra
  · exact h₁

theorem inv_handleCustomerInit (cid : Nat) {t : SimState} (ht : Inv t) :
    Inv (handleCustomerInit cid t) := by
  unfold handleCustomerInit
  dsimp only
  apply inv_triggerPut
  constructor
  · exact ht.evTime
  · exact ht.grantArr
  · intro ln' hln' p hp
    have hmem : ln' ∈
        ((update_queue_stats t.now (manage_checkouts t.store)).checkout_lanes.set
          (selectLane (update_queue_stats t.now (manage_checkouts t.store)))
          ⟨((update_queue_stats t.now (manage_checkouts t.store)).lane
              (selectLane (update_queue_stats t.now (manage_checkouts t.store)))).users,
            ((update_queue_stats t.now (manage_checkouts t.store)).lane
                (selectLane (update_queue_stats t.now (manage_checkouts t.store)))).queue ++
              [(cid, t.now)]⟩) := hln'
    rcases List.mem_or_eq_of_mem_set hmem with hln'' | rfl
    · have : ln' ∈ t.store.checkout_lanes := by
        have hl : (update_queue_stats t.now (manage_checkouts t.store)).checkout_lanes =
            t.store.checkout_lanes := by
          unfold update_queue_stats
          rw [manage_checkouts_lanes]
        rw [hl] at hln''
        exact hln''
      exact ht.laneArr ln' this p hp
    · rcases List.mem_append.mp hp with hp' | hp'
      · rw [update_manage_lane] at hp'
        set l := selectLane (update_queue_stats t.now (manage_checkouts t.store)) with hldef
        by_cases hl : l < t.store.checkout_lanes.length
        · have hmemlane : t.store.lane l ∈ t.store.checkout_lanes := by
            unfold Store.lane
            rw [List.getD_eq_getElem _ _ hl]
            exact List.getElem_mem hl
          exact ht.laneArr _ hmemlane p hp'
        · have : t.store.lane l = ⟨[], []⟩ :=
            List.getD_eq_default _ _ (le_of_not_lt hl)
          rw [this] at hp'
          simp at hp'
      · rw [List.mem_singleton.mp hp']
  · show ∀ w ∈ (update_queue_stats t.now (manage_checkouts t.store)).waiting_times, 0 ≤ w
    unfold update_queue_stats
    rw [manage_checkouts_waits]
    exact ht.waitsNN
  · show ∀ v ∈ (update_queue_stats t.now (manage_checkouts t.store)).service_times, 0 ≤ v
    unfold update_queue_stats
    rw [manage_checkouts_services]
    exact ht.servicesNN
  · exact ht.sendNN
  · show 1 ≤ (update_queue_stats t.now (manage_checkouts t.store)).active_lanes ∧
      (update_queue_stats t.now (manage_checkouts t.store)).active_lanes ≤ 3
    exact manage_checkouts_active_range t.store ht.activeRange
  · show (update_queue_stats t.now (manage_checkouts t.store)).service_times.length +
      pendCount t.events ≤
        (update_queue_stats t.now (manage_checkouts t.store)).waiting_times.length
    unfold update_queue_stats
    rw [manage_checkouts_waits, manage_checkouts_services]
    exact ht.lenRel

theorem inv_handleGrantWake (cid l : Nat) (arr : ℚ) {t : SimState} (ht : Inv t)
    (harr : arr ≤ t.now) : Inv (handleGrantWake cid l arr t) := by
  unfold handleGrantWake
  dsimp only
  apply inv_schedule
  · constructor
    · exact ht.evTime
    · exact ht.grantArr
    · exact ht.laneArr
    · intro w hw
      rcases List.mem_append.mp hw with hw' | hw'
      · exact ht.waitsNN w hw'
      · rw [List.mem_singleton.mp hw']
        exact sub_nonneg.mpr harr
    · exact ht.servicesNN
    · exact ht.sendNN
    · exact ht.activeRange
    · show t.store.service_times.length + pendCount t.events ≤
        (t.store.waiting_times ++ [t.now - arr]).length
      rw [List.length_append]
      have := ht.lenRel
      simp only [List.length_singleton]
      omega
  · exact le_refl 0
  · intro cid' l' arr' hev
    cases hev
  · intro cid' l' dur hev
    cases hev
  · intro _
    show t.store.service_times.length + pendCount t.events + 1 ≤
      (t.store.waiting_times ++ [t.now - arr]).length
    rw [List.length_append]
    have := ht.lenRel
    simp only [List.length_singleton]
    omega

theorem inv_handleServiceStart (stream : Nat → ℚ) (cid l : Nat) {t : SimState}
    (ht : Inv t)
    (hpend : t.store.service_times.length + pendCount t.events + 1 ≤
      t.store.waiting_times.length) :
    Inv (handleServiceStart stream cid l t) := by
  unfold handleServiceStart sampleRnd
  dsimp only
  apply inv_timeoutSched
  · exact ⟨ht.evTime, ht.grantArr, ht.laneArr, ht.waitsNN, ht.servicesNN,
      ht.sendNN, ht.activeRange, ht.lenRel⟩
  · intro cid' l' arr hev
    cases hev
  · intro cid' l' dur hev
    cases hev
    rfl
  · intro _
    exact hpend

theorem inv_handleServiceEnd (cid l : Nat) (d : ℚ) {t : SimState} (ht : Inv t)
    (hd : 0 ≤ d)
    (hpend : t.store.service_times.length + pendCount t.events + 1 ≤
      t.store.waiting_times.length) :
    Inv (handleServiceEnd cid l d t) := by
  unfold handleServiceEnd
  dsimp only
  apply inv_schedule
  · constructor
    · exact ht.evTime
    · exact ht.grantArr
    · exact ht.laneArr
    · exact ht.waitsNN
    · intro v hv
      rcases List.mem_append.mp hv with hv' | hv'
      · exact ht.servicesNN v hv'
      · rw [List.mem_singleton.mp hv']
        exact hd
    · exact ht.sendNN
    · exact ht.activeRange
    · show (t.store.service_times ++ [d]).length + pendCount t.events ≤
        t.store.waiting_times.length
      rw [List.length_append]
      simp only [List.length_singleton]
      omega
  · exact le_refl 0
  · intro cid' l' arr hev
    cases hev
  · intro cid' l' dur hev
    cases hev
  · intro hcontra
    simp [Ev.isPend] at hcontra

theorem inv_handleParentResume (cid l : Nat) {t : SimState} (ht : Inv t) :
    Inv (handleParentResume cid l t) := by
  unfold handleParentResume
  dsimp only
  apply inv_schedule
  · constructor
    · exact ht.evTime
    · exact ht.grantArr
    · intro ln' hln' p hp
      rcases List.mem_or_eq_of_mem_set hln' with hln'' | rfl
      · exact ht.laneArr ln' hln'' p hp
      · by_cases hl : l < t.store.checkout_lanes.length
        · have hmemlane : t.store.lane l ∈ t.store.checkout_lanes := by
            unfold Store.lane
            rw [List.getD_eq_getElem _ _ hl]
            exact List.getElem_mem hl
          exact ht.laneArr _ hmemlane p hp
        · have : t.store.lane l = ⟨[], []⟩ :=
            List.getD_eq_default _ _ (le_of_not_lt hl)
          rw [this] at hp
          simp at hp
    · exact ht.waitsNN
    · exact ht.servicesNN
    · exact ht.sendNN
    · exact ht.activeRange
    · exact ht.lenRel
  · exact le_refl 0
  · intro cid' l' arr hev
    cases hev
  · intro cid' l' dur hev
    cases hev
  · intro hcontra
    simp [Ev.isPend] at hcontra

theorem inv_handleReleaseTrig (l : Nat) {t : SimState} (ht : Inv t) :
    Inv (handleReleaseTrig l t) := inv_triggerPut l ht

/-- One step of the scheduler preserves the invariant. -/
theorem step_inv (stream : Nat → ℚ) {s : SimState} (h : Inv s) : Inv (step stream s) := by
  unfold step
  cases hp : popMin s.events with
  | none => exact h
  | some pr =>
    obtain ⟨e, rest⟩ := pr
    dsimp only
    have hmem := popMin_mem hp
    have hsub := popMin_rest_subset hp
    have hmin := popMin_time_le hp
    have hperm := popMin_perm hp
    have hnow : s.now ≤ e.time := h.evTime e hmem
    have hcount : pendCount s.events = pendCount rest + (if e.ev.isPend then 1 else 0) := by
      unfold pendCount
      rw [hperm.countP_eq]
      simp [List.countP_cons]
    have h' : Inv { s with now := e.time, events := rest } := by
      constructor
      · exact fun x hx => hmin x (hsub x hx)
      · exact fun x hx => h.grantArr x (hsub x hx)
      · exact fun ln hln p hpq => le_trans (h.laneArr ln hln p hpq) hnow
      · exact h.waitsNN
      · exact h.servicesNN
      · exact fun x hx => h.sendNN x (hsub x hx)
      · exact h.activeRange
      · show s.store.service_times.length + pendCount rest ≤
          s.store.waiting_times.length
        have := h.lenRel
        omega
    cases hev : e.ev with
    | setupStart => exact inv_handleSetupStart stream h'
    | setupWake => exact inv_handleSetupWake stream h'
    | customerInit cid => exact inv_handleCustomerInit cid h'
    | grantWake cid l arr =>
      exact inv_handleGrantWake cid l arr h'
        (le_trans (h.grantArr e hmem cid l arr hev) (le_refl e.time))
    | serviceStart cid l =>
      refine inv_handleServiceStart stream cid l h' ?_
      show s.store.service_times.length + pendCount rest + 1 ≤
        s.store.waiting_times.length
      have := h.lenRel
      rw [hev] at hcount
      simp [Ev.isPend] at hcount
      omega
    | serviceEnd cid l d =>
      refine inv_handleServiceEnd cid l d h' (h.sendNN e hmem cid l d hev) ?_
      show s.store.service_times.length + pendCount rest + 1 ≤
        s.store.waiting_times.length
      have := h.lenRel
      rw [hev] at hcount
      simp [Ev.isPend] at hcount
      omega
    | parentResume cid l => exact inv_handleParentResume cid l h'
    | releaseTrig l => exact inv_handleReleaseTrig l h'

/-- The initial state satisfies the invariant. -/
theorem init_inv : Inv initState := by
  constructor
  · intro e he
    simp [initState] at he
    rw [he]
    exact le_refl _
  · intro e he cid l arr hev
    simp [initState] at he
    rw [he] at hev
    cases hev
  · intro ln hln p hp
    simp [initState, initStore, NUM_CHECKOUT_LANES] at hln
    rw [hln] at hp
    simp at hp
  · intro w hw
    simp [initState, initStore] at hw
  · intro v hv
    simp [initState, initStore] at hv
  · intro e he cid l d hev
    simp [initState] at he
    rw [he] at hev
    cases hev
  · exact ⟨le_refl 1, by norm_num [initState, initStore]⟩
  · simp [initState, initStore, pendCount, List.countP_cons, Ev.isPend]

/-- The invariant holds at every point of every run. -/
theorem runSim_inv (stream : Nat → ℚ) : ∀ n, Inv (runSim stream n) := by
  intro n
  induction n with
  | zero => exact init_inv
  | succ n ih =>
    unfold runSim
    dsimp only
    split
    · exact ih
    · exact step_inv stream ih

/-! ## Claims about whole runs -/

/-- C10: in every reachable state of every run the active-lane count is
at least 1 (it starts at 1 and is only ever assigned 2 or 3), so the
division by `active_lanes` in `update_queue_stats` never divides by
zero. -/
theorem active_lanes_always_positive (stream : Nat → ℚ) (n : Nat) :
    1 ≤ (runSim stream n).store.active_lanes ∧
      ((runSim stream n).store.active_lanes : ℚ) ≠ 0 := by
  have h := (runSim_inv stream n).activeRange
  refine ⟨h.1, ?_⟩
  have hne : (runSim stream n).store.active_lanes ≠ 0 := by omega
  exact_mod_cast hne

/-- C9: every value recorded in `waiting_times` and every value recorded
in `service_times` is non-negative, at every point of every run: the
clock never moves backward between a customer's arrival and its lane
grant, and a negative sampled service duration aborts the run before it
could be recorded. -/
theorem recorded_values_nonneg (stream : Nat → ℚ) (n : Nat) :
    (∀ w ∈ (runSim stream n).store.waiting_times, 0 ≤ w) ∧
      (∀ v ∈ (runSim stream n).store.service_times, 0 ≤ v) :=
  ⟨(runSim_inv stream n).waitsNN, (runSim_inv stream n).servicesNN⟩

/-- C3 (amended): at every point of every run, the number of recorded
service times is at most the number of recorded wait times (each service
record belongs to a customer whose wait was recorded at its lane grant);
equality can fail at the end of a run when customers are still in service
at the horizon. -/
theorem service_count_le_wait_count (stream : Nat → ℚ) (n : Nat) :
    (runSim stream n).store.service_times.length ≤
      (runSim stream n).store.waiting_times.length := by
  have h := (runSim_inv stream n).lenRel
  omega

/-- C2 (amended): the simulated clock never reaches `SIMULATION_TIME`:
`env.run(until=SIMULATION_TIME)` stops the run at the horizon, so no
event at or past the horizon is ever processed — in particular a
customer whose lane grant or service completion falls at or after the
horizon never records the corresponding value. -/
theorem clock_stays_below_horizon (stream : Nat → ℚ) (n : Nat) :
    (runSim stream n).now < SIMULATION_TIME := by
  induction n with
  | zero =>
    show (0 : ℚ) < SIMULATION_TIME
    norm_num [SIMULATION_TIME]
  | succ n ih =>
    unfold runSim
    dsimp only
    split
    · exact ih
    · next hstop =>
      unfold step
      cases hp : popMin (runSim stream n).events with
      | none => exact ih
      | some pr =>
        obtain ⟨e, rest⟩ := pr
        dsimp only
        have he : e.time < SIMULATION_TIME := by
          unfold shouldStop at hstop
          rw [hp] at hstop
          simp at hstop
          exact hstop.2
        cases e.ev with
        | setupStart => rw [handleSetupStart_now]; exact he
        | setupWake => rw [handleSetupWake_now]; exact he
        | customerInit cid => rw [handleCustomerInit_now]; exact he
        | grantWake cid l arr => rw [handleGrantWake_now]; exact he
        | serviceStart cid l => rw [handleServiceStart_now]; exact he
        | serviceEnd cid l d => rw [handleServiceEnd_now]; exact he
        | parentResume cid l => rw [handleParentResume_now]; exact he
        | releaseTrig l => rw [handleReleaseTrig_now]; exact he

/-- C5 (amended): what the scheduler actually does with a non-positive
duration sample.  A strictly negative sample reaching `env.timeout`
aborts the run at once (SimPy raises `ValueError`), recording nothing;
but a zero sample is accepted: the run does not abort and the completion
is scheduled at the current instant (`now + 0`).  The sample is never
coerced, clamped or skipped — it is used as-is in both cases.  The first
part also covers the interarrival site in `setup`. -/
theorem negative_delay_aborts_zero_accepted (stream : Nat → ℚ) (cid l : Nat)
    (s : SimState) :
    (stream s.cursor < 0 →
      (handleServiceStart stream cid l s).aborted = true ∧
      (handleServiceStart stream cid l s).store = s.store ∧
      (handleServiceStart stream cid l s).events = s.events ∧
      (s.now < SIMULATION_TIME → (handleSetupWake stream s).aborted = true)) ∧
    (0 ≤ stream s.cursor →
      (handleServiceStart stream cid l s).aborted = s.aborted ∧
      (handleServiceStart stream cid l s).events = s.events ++
        [⟨s.now + stream s.cursor, 1, s.nextEid, .serviceEnd cid l (stream s.cursor)⟩]) := by
  constructor
  · intro hneg
    refine ⟨?_, ?_, ?_, ?_⟩
    · unfold handleServiceStart sampleRnd timeoutSched
      dsimp only
      rw [if_pos hneg]
    · unfold handleServiceStart sampleRnd timeoutSched
      dsimp only
      rw [if_pos hneg]
    · unfold handleServiceStart sampleRnd timeoutSched
      dsimp only
      rw [if_pos hneg]
    · intro hlt
      unfold handleSetupWake sampleRnd timeoutSched
      dsimp only
      rw [if_pos (by exact hlt : (schedule { s with nextId := s.nextId + 1 } 0 0
        (.customerInit (s.nextId + 1))).now < SIMULATION_TIME)]
      try dsimp only
      rw [if_pos (by exact hneg : stream (schedule { s with nextId := s.nextId + 1 } 0 0
        (.customerInit (s.nextId + 1))).cursor < 0)]
  · intro hge
    constructor
    · unfold handleServiceStart sampleRnd timeoutSched
      try dsimp only
      rw [if_neg (not_lt.mpr hge)]
      rfl
    · unfold handleServiceStart sampleRnd timeoutSched
      try dsimp only
      rw [if_neg (not_lt.mpr hge)]
      rfl

/-! ## Concrete runs: counterexamples and witnesses -/

attribute [local semireducible] Rat.add Rat.sub Rat.mul Rat.inv

set_option maxRecDepth 100000

/-- Oracle stream for the C2 counterexample: the single customer arrives
at 599 (just before the horizon 600) and samples a service time of 5,
finishing at 604, past the horizon. -/
def c2stream : Nat → ℚ := fun i => [(599 : ℚ), 1000, 5].getD i 1000

/-- C2 is false on the code: the customer admitted at 599 < 600 records
its wait time but never its service time — the run stops with its
service-completion event (due at 604 ≥ 600) still pending, so
`wait_times` and `service_times` do not both contain this customer. -/
theorem admitted_customer_unfinished_at_horizon :
    (599 : ℚ) < SIMULATION_TIME ∧
    shouldStop (runSim c2stream 5) = true ∧
    (runSim c2stream 5).store.waiting_times = [0] ∧
    (runSim c2stream 5).store.service_times = [] ∧
    (runSim c2stream 5).events.map Entry.time = [1599, 604] := by
  refine ⟨by norm_num [SIMULATION_TIME], by decide, by decide, by decide, by decide⟩

/-- Oracle stream for the C3 counterexample: arrival at 598, service
sample 7, completion due at 605, past the horizon. -/
def c3stream : Nat → ℚ := fun i => [(598 : ℚ), 1000, 7].getD i 1000

/-- C3 is false on the code: at the end of this run one wait time but no
service time is recorded, so the two sequences have different lengths. -/
theorem wait_without_service_at_horizon :
    shouldStop (runSim c3stream 5) = true ∧
    (runSim c3stream 5).store.waiting_times.length = 1 ∧
    (runSim c3stream 5).store.service_times.length = 0 := by
  refine ⟨by decide, by decide, by decide⟩

/-- Oracle stream for the C5 counterexample: arrival at 1, service
sample exactly 0. -/
def c5stream : Nat → ℚ := fun i => [(1 : ℚ), 1000, 0].getD i 1000

/-- C5 is false on the code for a zero sample: the non-positive sample 0
reaches the scheduler as a timeout delay, the run does not abort, and
the 0 is recorded as a service time as-is. -/
theorem zero_sample_no_abort :
    (runSim c5stream 8).aborted = false ∧
    shouldStop (runSim c5stream 8) = true ∧
    (runSim c5stream 8).store.service_times = [0] := by
  refine ⟨by decide, by decide, by decide⟩

/-- All-negative oracle stream, for the C5 witness. -/
def negStream : Nat → ℚ := fun _ => -1

/-- Witness for the amended C5 at a concrete state: a negative sample
aborts the run and records nothing. -/
theorem negative_delay_aborts_zero_accepted_witness :
    (handleServiceStart negStream 1 0 initState).aborted = true ∧
    (handleServiceStart negStream 1 0 initState).store = initState.store ∧
    (handleServiceStart negStream 1 0 initState).events = initState.events ∧
    (initState.now < SIMULATION_TIME →
      (handleSetupWake negStream initState).aborted = true) :=
  (negative_delay_aborts_zero_accepted negStream 1 0 initState).1 (by norm_num [negStream])

/-- Oracle stream for the C9 witness: one customer, arrival at 1,
service 2, run completes. -/
def c9stream : Nat → ℚ := fun i => [(1 : ℚ), 1000, 2].getD i 1000

/-- Witness for C9: the recorded wait and service values of a completed
run are non-negative. -/
theorem recorded_values_nonneg_witness :
    0 ≤ (runSim c9stream 8).store.waiting_times.headI ∧
    0 ≤ (runSim c9stream 8).store.service_times.headI :=
  ⟨(recorded_values_nonneg c9stream 8).1 _ (by decide),
    (recorded_values_nonneg c9stream 8).2 _ (by decide)⟩

/-- Oracle stream driving a run in which `manage_checkouts` decreases
`active_lanes` from 3 to 2: customers arrive every 2 minutes; the first
customer on each of lanes 1 and 3 and the second customer on lane 2 have
huge service times; customer 11 (first on lane 2) is served in 21
minutes.  Lane 1 fills to load 10 (lane 2 opens at t = 22), lane 2 fills
to load 10 (lane 3 opens at t = 42), then customer 11 departs at t = 43,
dropping lane 2 to load 9 while lane 1 still has load 10.  At t = 44 the
next arrival's `manage_checkouts` re-runs the first conditional and sets
`active_lanes` back to 2. -/
def c1stream : Nat → ℚ := fun i =>
  [(2 : ℚ), 2, 10000, 2, 2, 2, 2, 2, 2, 2, 2, 2, 2, 21, 2, 2, 2, 2, 2, 2, 2, 2,
    2, 2, 10000, 10000, 10000].getD i 10000

/-- C1 is false on the code: in this run, after 55 processed events 3
lanes are active, the next event is customer 22's arrival, its
`manage_checkouts` call maps the reached store from 3 active lanes to 2,
and the state after that event indeed has 2 active lanes — the count
decreased. -/
theorem manage_checkouts_decreases_active_lanes :
    (runSim c1stream 55).store.active_lanes = 3 ∧
    (popMin (runSim c1stream 55).events).map (fun p => p.1.ev) =
      some (.customerInit 22) ∧
    (manage_checkouts (runSim c1stream 55).store).active_lanes = 2 ∧
    (runSim c1stream 56).store.active_lanes = 2 := by
  refine ⟨by decide, by decide, by decide, by decide⟩

end ProjectSim
